import Mathlib

set_option maxRecDepth 2048

/-!
# Verification of `display_oled.c`

A shallow embedding of the page-navigation firmware `src/display_oled.c`:
the debounced navigation loop in `main`, the text layout routine
`oled_println_buf`, the render orchestrator `render_page`, and the tone
generator `play_tone`.  Machine integers are modelled as `Nat`/`Int` with
explicit wraparound where the C code can wrap; the C `float` arithmetic of
`play_tone` is modelled over `ℚ`.
-/

namespace DisplayOled

/-! ## Constants from the source -/

-- #define DEBOUNCE_MS 180
def DEBOUNCE_MS : Nat := 180

-- #define LINE_H 8
def LINE_H : Nat := 8

-- static const char *PAGES[] = { ... };  (four page contents)
def PAGES : List String :=
  [ "              \n|Bem vindo! |\n|            |\n|ALUNO    |\n|            |\n|TADS Info 2B|\n              \n",
    "Pagina 2\n\nCom programacao \n\ne robotica\n                \n",
    "Pagina 3\n\nO ceu e limite.",
    "Pagina 4\n\nObrigado" ]

-- static const int NUM_PAGES = sizeof(PAGES)/sizeof(PAGES[0]);  (= 4)
def NUM_PAGES : Int := PAGES.length

/-! ## Navigation state machine (`main`'s loop state and one poll tick)

The loop state consists of `current_page` (a C `int`, modelled as `Int`)
and the debounce clock `last_change` (an absolute time, modelled as `Nat`
microseconds).  `absolute_time_diff_us(last_change, now) / 1000` is
modelled as `(now - last_change) / 1000` over `Nat`: time is sampled
monotonically, and if `now < last_change` both the C `int64_t` quotient
(`≤ 0`) and the truncated `Nat` subtraction (`0`) fail the `> 180` test,
so the two semantics agree on the debounce decision. -/

structure NavState where
  current_page : Int
  last_change : Nat
  deriving Repr, DecidableEq

/-- The externally visible side effect of one poll tick: at most one of a
render (page change) or a boundary beep fires per tick. -/
inductive TickEffect where
  | render (page : Int)
  | beepLast
  | beepFirst
  | none
  deriving Repr, DecidableEq

/-- One iteration of the `while (true)` loop in `main`, given the sampled
button levels (`a` = `button_pressed(BUTTON_A_PIN)`,
`b` = `button_pressed(BUTTON_B_PIN)`) and the current time `now` in
microseconds.  Mirrors the source: A is checked first, B only in the
`else` branch; the debounce test gates both; `last_change` is set on every
qualifying press whether or not the page changed; `render_page` runs only
when `updated` was set. -/
def tick (s : NavState) (a b : Bool) (now : Nat) : NavState × TickEffect :=
  if a then
    if (now - s.last_change) / 1000 > DEBOUNCE_MS then
      if s.current_page < NUM_PAGES - 1 then
        (⟨s.current_page + 1, now⟩, .render (s.current_page + 1))
      else
        (⟨s.current_page, now⟩, .beepLast)
    else (s, .none)
  else if b then
    if (now - s.last_change) / 1000 > DEBOUNCE_MS then
      if s.current_page > 0 then
        (⟨s.current_page - 1, now⟩, .render (s.current_page - 1))
      else
        (⟨s.current_page, now⟩, .beepFirst)
    else (s, .none)
  else (s, .none)

/-- The state at program start: `current_page = 0`,
`last_change = get_absolute_time()` at startup time `t0`. -/
def initState (t0 : Nat) : NavState := ⟨0, t0⟩

/-- Run the poll loop over a finite input trace of
(button A level, button B level, time) samples. -/
def run (s : NavState) : List (Bool × Bool × Nat) → NavState
  | [] => s
  | (a, b, t) :: rest => run (tick s a b t).1 rest

/-! ## Text layout (`oled_println_buf`)

The C routine walks the content once, splitting on `'\n'`.  Every segment
(the characters between two breaks, or after the last break) occupies one
line slot: `y` advances by `LINE_H` at every `'\n'`, whether or not the
segment is empty.  A segment is drawn only when non-empty, truncated to
fit the 128-byte `linebuf` (at most 127 characters plus the terminator).

`layoutEntries` is the traversal itself: the ordered list of
(segment, y-offset) line entries, including empty ones and the final
(possibly empty) trailing segment.  `oled_println_buf` is then the list
of actual `ssd1306_draw_string` calls the C code makes: non-empty
entries, truncated. -/

/-- `if (len >= sizeof(linebuf)) len = sizeof(linebuf) - 1;` followed by a
copy of `len` characters: the drawn line keeps at most 127 characters. -/
def truncLine (seg : List Char) : List Char :=
  let len := seg.length
  let len := if len ≥ 128 then 127 else len
  seg.take len

/-- The line entries produced by one traversal of `oled_println_buf`'s
loop: `cur` is the segment accumulated since the last break (`start..p`),
`y` the current vertical offset. -/
def layoutEntriesAux (lineH : Nat) : Nat → List Char → List Char → List (List Char × Nat)
  | y, cur, [] => [(cur, y)]
  | y, cur, c :: rest =>
    if c = '\n' then (cur, y) :: layoutEntriesAux lineH (y + lineH) [] rest
    else layoutEntriesAux lineH y (cur ++ [c]) rest

def layoutEntries (lineH y0 : Nat) (text : List Char) : List (List Char × Nat) :=
  layoutEntriesAux lineH y0 [] text

/-- The `ssd1306_draw_string(ssd, x, y, linebuf)` calls issued by
`oled_println_buf(ssd, x, y, text)`, as (line, x, y) triples: an entry is
drawn exactly when its segment is non-empty (`len > 0` at a break,
`p > start` at the end), after truncation to the line buffer. -/
def oled_println_buf (x y : Nat) (text : List Char) : List (List Char × Nat × Nat) :=
  (layoutEntries LINE_H y text).filterMap
    (fun e => if e.1.isEmpty then Option.none else some (truncLine e.1, x, e.2))

/-! ## Render orchestrator (`render_page`) -/

/-- `snprintf(footer, sizeof(footer), "A=Prox B=Voltar  %d/%d",
page_index + 1, NUM_PAGES)`: the formatted string, truncated by
`snprintf` to `sizeof(footer) - 1 = 31` characters. -/
def footerText (page_index : Int) : String :=
  (("A=Prox B=Voltar  " ++ toString (page_index + 1) ++ "/" ++ toString NUM_PAGES).take 31)

/-- `render_page(ssd, area, page_index)` after the buffer clear: the body
drawn by `oled_println_buf` at the left margin `x = 5`, top `y = 0`,
followed by the footer drawn at `(0, 56)`, the last useful row of the
128×64 display.  The list is the ordered sequence of draw calls into the
cleared frame buffer before the flush. -/
def render_page (page_index : Nat) : List (List Char × Nat × Nat) :=
  oled_println_buf 5 0 ((PAGES.getD page_index "").toList)
    ++ [((footerText page_index).toList, 0, 56)]

/-! ## Tone generator (`play_tone`)

`play_tone(freq_hz, ms, duty)` is modelled as the sequence of effects it
performs: PWM divider/wrap/level writes and sleeps.  The C `float`
arithmetic (`clk_div`, `duty`, the `top` computation) is modelled over
`ℚ`; the `(uint32_t)` casts truncate, and the `- 1u` underflow for
quotients below 1 wraps modulo `2^32` exactly as in C. -/

inductive ToneEffect where
  | setClkdiv (div : ℚ)
  | setWrap (top : Nat)
  | setLevel (level : Nat)
  | sleep (ms : Nat)
  deriving Repr, DecidableEq

-- const uint32_t clk_sys = 125000000;
def clk_sys : Nat := 125000000

/-- `top = (uint32_t)((float)clk_sys / (clk_div * (float)freq_hz)) - 1u`
for a given divider: truncated quotient, minus one with `uint32_t`
wraparound. -/
def toneTopRaw (div freq : Nat) : Nat :=
  (clk_sys / (div * freq) + (2 ^ 32 - 1)) % 2 ^ 32

/-- The divider/wrap pair chosen by `play_tone` for `freq > 0`: divider 4,
then 16 if `top` exceeds 16 bits, saturating `top` at 65535 for very low
frequencies. -/
def toneParams (freq : Nat) : ℚ × Nat :=
  let top := toneTopRaw 4 freq
  if top > 65535 then
    let top := toneTopRaw 16 freq
    if top > 65535 then (16, 65535) else (16, top)
  else (4, top)

/-- `if (duty < 0.0f) duty = 0.0f; if (duty > 1.0f) duty = 1.0f;` -/
def clampDuty (duty : ℚ) : ℚ :=
  let duty := if duty < 0 then 0 else duty
  if duty > 1 then 1 else duty

/-- `level = (uint32_t)((float)top * duty)` on the clamped duty. -/
def toneLevel (freq : Nat) (duty : ℚ) : Nat :=
  (⌊((toneParams freq).2 : ℚ) * clampDuty duty⌋).toNat

/-- The effect trace of `play_tone(freq_hz, ms, duty)`. -/
def play_tone (freq ms : Nat) (duty : ℚ) : List ToneEffect :=
  if freq = 0 then [.sleep ms]
  else
    [.setClkdiv (toneParams freq).1, .setWrap (toneParams freq).2,
     .setLevel (toneLevel freq duty), .sleep ms, .setLevel 0]

-- static void beep_first_page(void) { play_tone(500, 90, 0.35f); }
def beep_first_page : List ToneEffect := play_tone 500 90 (35 / 100)

-- static void beep_last_page(void) { play_tone(1200, 90, 0.35f); }
def beep_last_page : List ToneEffect := play_tone 1200 90 (35 / 100)

/-! ## Helper lemmas -/

theorem num_pages_eq : NUM_PAGES = 4 := rfl

/-- One tick preserves the page-index range invariant. -/
theorem tick_preserves_range (s : NavState) (a b : Bool) (now : Nat)
    (h0 : 0 ≤ s.current_page) (h1 : s.current_page < NUM_PAGES) :
    0 ≤ (tick s a b now).1.current_page ∧ (tick s a b now).1.current_page < NUM_PAGES := by
  rw [num_pages_eq] at h1 ⊢
  cases a <;> cases b <;> simp only [tick, num_pages_eq] <;> split_ifs <;> simp <;> omega

/-- Running any input trace preserves the page-index range invariant. -/
theorem run_preserves_range (inputs : List (Bool × Bool × Nat)) (s : NavState)
    (h0 : 0 ≤ s.current_page) (h1 : s.current_page < NUM_PAGES) :
    0 ≤ (run s inputs).current_page ∧ (run s inputs).current_page < NUM_PAGES := by
  induction inputs generalizing s with
  | nil => exact ⟨h0, h1⟩
  | cons i rest ih =>
    obtain ⟨a, b, t⟩ := i
    have h := tick_preserves_range s a b t h0 h1
    exact ih (tick s a b t).1 h.1 h.2

/-- The vertical offsets of the layout entries: one per line slot,
starting at `y` and advancing by `lineH` at every line break. -/
theorem layoutEntriesAux_snd (lineH : Nat) (cs : List Char) :
    ∀ (y : Nat) (cur : List Char),
      (layoutEntriesAux lineH y cur cs).map (·.2)
        = (List.range (cs.count '\n' + 1)).map (fun k => y + k * lineH) := by
  induction cs with
  | nil => intro y cur; simp [layoutEntriesAux, List.range_succ]
  | cons c rest ih =>
    intro y cur
    by_cases hc : c = '\n'
    · subst hc
      have step : layoutEntriesAux lineH y cur ('\n' :: rest)
          = (cur, y) :: layoutEntriesAux lineH (y + lineH) [] rest := by
        simp [layoutEntriesAux]
      rw [step, List.map_cons, ih (y + lineH) [], List.count_cons_self,
        show List.range (rest.count '\n' + 1 + 1)
            = 0 :: List.map Nat.succ (List.range (rest.count '\n' + 1)) from
          List.range_succ_eq_map _,
        List.map_cons, List.map_map]
      congr 1
      · simp
      · apply List.map_congr_left
        intro k _
        simp only [Function.comp_apply, Nat.succ_eq_add_one]
        ring
    · rw [layoutEntriesAux, if_neg hc, ih y (cur ++ [c]), List.count_cons_of_ne]
      exact fun h => hc h.symm

theorem layoutEntriesAux_length (lineH y : Nat) (cur cs : List Char) :
    (layoutEntriesAux lineH y cur cs).length = cs.count '\n' + 1 := by
  have h := congrArg List.length (layoutEntriesAux_snd lineH cs y cur)
  simpa using h

/-- The truncated line is exactly the first 127 characters of the segment. -/
theorem truncLine_eq_take (seg : List Char) : truncLine seg = seg.take 127 := by
  unfold truncLine
  by_cases h : seg.length ≥ 128
  · simp [h]
  · have hle : seg.length ≤ 127 := by omega
    simp only [if_neg h, List.take_length]
    exact (List.take_of_length_le hle).symm

theorem truncLine_length (seg : List Char) :
    (truncLine seg).length = min seg.length 127 := by
  rw [truncLine_eq_take, List.length_take, Nat.min_comm]

/-! ## The claims -/

/-- Claim C1: for every reachable state of the navigation loop (starting
from `current_page = 0` and applying any finite sequence of poll ticks
with arbitrary button inputs and times), the invariant
`0 ≤ current_page < NUM_PAGES` holds at all times. -/
theorem page_index_invariant (t0 : Nat) (inputs : List (Bool × Bool × Nat)) :
    0 ≤ (run (initState t0) inputs).current_page ∧
      (run (initState t0) inputs).current_page < NUM_PAGES :=
  run_preserves_range inputs (initState t0) (le_refl 0) (by norm_num [initState, num_pages_eq])

/-- Claim C2: with the debounce window elapsed, a Next press on the last
page plays the last-page boundary tone and leaves `current_page`
unchanged (no render), and a Previous press on the first page plays the
first-page boundary tone and leaves `current_page` unchanged. -/
theorem boundary_press_behaviour (lastc now : Nat) (b : Bool)
    (hq : (now - lastc) / 1000 > DEBOUNCE_MS) :
    tick ⟨NUM_PAGES - 1, lastc⟩ true b now
        = (⟨NUM_PAGES - 1, now⟩, TickEffect.beepLast) ∧
    tick ⟨0, lastc⟩ false true now = (⟨0, now⟩, TickEffect.beepFirst) := by
  constructor <;> simp [tick, hq, num_pages_eq]

theorem boundary_press_behaviour_witness :
    (200000 - 0) / 1000 > DEBOUNCE_MS ∧
    (tick ⟨NUM_PAGES - 1, 0⟩ true false 200000
        = (⟨NUM_PAGES - 1, 200000⟩, TickEffect.beepLast) ∧
     tick ⟨0, 0⟩ false true 200000 = (⟨0, 200000⟩, TickEffect.beepFirst)) :=
  ⟨by decide, boundary_press_behaviour 0 200000 false (by decide)⟩

/-- Claim C3: the last-page tone fires exactly on a debounce-qualifying
Next press made while `current_page` is already at (or beyond) the last
page; moreover every tick either leaves the page unchanged or has the
render of the new page as its only effect, so a tick that increments the
page — in particular one arriving at the last page — never plays a
boundary tone. -/
theorem beepLast_characterisation (s : NavState) (a b : Bool) (now : Nat) :
    ((tick s a b now).2 = TickEffect.beepLast ↔
      (a = true ∧ (now - s.last_change) / 1000 > DEBOUNCE_MS ∧
        ¬(s.current_page < NUM_PAGES - 1))) ∧
    ((tick s a b now).1.current_page = s.current_page ∨
      (tick s a b now).2 = TickEffect.render ((tick s a b now).1.current_page)) := by
  cases a <;> cases b <;> simp [tick] <;> split_ifs <;> simp_all <;> omega

/-- Claim C4: a qualifying press (any tick with a non-`none` effect)
resets the debounce clock to the tick's time, whether or not the page
changed; hence a second press of either button less than 180 ms later is
a complete no-op (state unchanged, no effect), so the pair produces
exactly one action. -/
theorem debounce_blocks_second_press (s : NavState) (a b : Bool) (t1 : Nat)
    (a2 b2 : Bool) (t2 : Nat)
    (h1 : (tick s a b t1).2 ≠ TickEffect.none) (h2 : t2 - t1 < 180000) :
    (tick s a b t1).1.last_change = t1 ∧
    tick (tick s a b t1).1 a2 b2 t2 = ((tick s a b t1).1, TickEffect.none) := by
  have hlc : (tick s a b t1).1.last_change = t1 := by
    cases a <;> cases b <;> simp [tick] at h1 ⊢ <;> split_ifs at h1 ⊢ <;> simp_all
  refine ⟨hlc, ?_⟩
  have hd : ¬((t2 - t1) / 1000 > DEBOUNCE_MS) := by
    simp only [DEBOUNCE_MS]
    omega
  rcases hE : (tick s a b t1).1 with ⟨p', l'⟩
  rw [hE] at hlc
  have hl' : l' = t1 := hlc
  subst hl'
  cases a2 <;> cases b2 <;> simp [tick, hd]

theorem debounce_blocks_second_press_witness :
    (tick (initState 0) true false 200000).2 ≠ TickEffect.none ∧
    300000 - 200000 < 180000 ∧
    ((tick (initState 0) true false 200000).1.last_change = 200000 ∧
     tick (tick (initState 0) true false 200000).1 true false 300000
        = ((tick (initState 0) true false 200000).1, TickEffect.none)) :=
  ⟨by decide, by decide,
    debounce_blocks_second_press (initState 0) true false 200000 true false 300000
      (by decide) (by decide)⟩

/-- Claim C5: a tick in which both buttons are reported pressed produces
exactly the same state update and effect as a tick in which only Next
(button A) is pressed. -/
theorem both_buttons_same_as_next (s : NavState) (now : Nat) :
    tick s true true now = tick s true false now := rfl

/-- Claim C6: rendering a valid page index draws, as its final draw call
at the fixed bottom row `(0, 56)`, a footer of the exact form
`A=Prox B=Voltar  (index+1)/(NUM_PAGES)` with no `snprintf` truncation;
in particular index 2 of the 4-page catalog yields exactly
`A=Prox B=Voltar  3/4`. -/
theorem footer_exact (i : Nat) (hi : i < 4) :
    (render_page i).getLast? = some ((footerText i).toList, 0, 56) ∧
    footerText i = "A=Prox B=Voltar  " ++ toString ((i : Int) + 1) ++ "/4" ∧
    footerText 2 = "A=Prox B=Voltar  3/4" := by
  refine ⟨?_, ?_, by decide⟩
  · simp [render_page, List.getLast?_concat]
  · interval_cases i <;> decide

theorem footer_exact_witness :
    2 < 4 ∧
    ((render_page 2).getLast? = some ((footerText 2).toList, 0, 56) ∧
     footerText 2 = "A=Prox B=Voltar  " ++ toString ((2 : Int) + 1) ++ "/4" ∧
     footerText 2 = "A=Prox B=Voltar  3/4") :=
  ⟨by decide, footer_exact 2 (by decide)⟩

/-- Claim C7: a content string containing exactly 3 line-break characters
yields exactly 4 layout line entries (the trailing one possibly empty),
drawn at vertical offsets advancing by exactly one `LINE_H` per entry. -/
theorem layout_three_breaks (text : List Char) (y0 : Nat)
    (h : text.count '\n' = 3) :
    (layoutEntries LINE_H y0 text).length = 4 ∧
    (layoutEntries LINE_H y0 text).map (·.2)
      = [y0, y0 + LINE_H, y0 + 2 * LINE_H, y0 + 3 * LINE_H] := by
  constructor
  · rw [layoutEntries, layoutEntriesAux_length, h]
  · rw [layoutEntries, layoutEntriesAux_snd, h]
    norm_num [List.range_succ, LINE_H]

theorem layout_three_breaks_witness :
    "a\nb\n\nc".toList.count '\n' = 3 ∧
    ((layoutEntries LINE_H 0 "a\nb\n\nc".toList).length = 4 ∧
     (layoutEntries LINE_H 0 "a\nb\n\nc".toList).map (·.2)
        = [0, 0 + LINE_H, 0 + 2 * LINE_H, 0 + 3 * LINE_H]) :=
  ⟨by decide, layout_three_breaks "a\nb\n\nc".toList 0 (by decide)⟩

/-- Claim C8: every line actually drawn by `oled_println_buf` is at most
127 characters long (it always fits the 128-byte line buffer together
with its terminator) and is exactly the first 127 characters of its
source segment — oversized lines are silently truncated, never a failure
or an out-of-bounds write. -/
theorem drawn_line_truncated (x y0 : Nat) (text : List Char)
    (s : List Char) (px py : Nat)
    (hmem : (s, px, py) ∈ oled_println_buf x y0 text) :
    s.length ≤ 127 ∧
    ∃ e ∈ layoutEntries LINE_H y0 text, s = e.1.take 127 ∧ py = e.2 := by
  rcases List.mem_filterMap.mp hmem with ⟨e, he, heq⟩
  by_cases hne : e.1.isEmpty
  · rw [if_pos hne] at heq
    exact absurd heq (by simp)
  · rw [if_neg hne] at heq
    have hs : truncLine e.1 = s := congrArg (Prod.fst) (Option.some.inj heq)
    have hy : e.2 = py := congrArg (fun q => q.2.2) (Option.some.inj heq)
    refine ⟨?_, e, he, ?_, hy.symm⟩
    · rw [← hs, truncLine_eq_take]
      exact (List.length_take _ _).le.trans (Nat.min_le_left _ _)
    · rw [← hs, truncLine_eq_take]

theorem drawn_line_truncated_witness :
    (List.replicate 127 'a', 5, 0) ∈ oled_println_buf 5 0 (List.replicate 200 'a') ∧
    ((List.replicate 127 'a' : List Char).length ≤ 127 ∧
     ∃ e ∈ layoutEntries LINE_H 0 (List.replicate 200 'a'),
        List.replicate 127 'a' = e.1.take 127 ∧ 0 = e.2) :=
  ⟨by decide,
    drawn_line_truncated 5 0 (List.replicate 200 'a') (List.replicate 127 'a') 5 0
      (by decide)⟩

/-- Claim C9: `play_tone(0, ms, duty)` is a pure rest: its whole effect
trace is a single `ms`-millisecond sleep, with no PWM configuration and
no output-level change. -/
theorem play_tone_zero_is_rest (ms : Nat) (duty : ℚ) :
    play_tone 0 ms duty = [ToneEffect.sleep ms] := rfl

/-- Claim C10: for a nonzero frequency, the duty argument is clamped into
the unit interval (`min (max duty 0) 1`, so below 0 acts as 0 and above 1
acts as 1) before the PWM level is computed, and the resulting level
never exceeds the wrap value (full scale); the call always runs the same
five-effect trace. -/
theorem duty_clamped_safe (freq ms : Nat) (duty : ℚ) (hf : 0 < freq) :
    0 ≤ clampDuty duty ∧ clampDuty duty ≤ 1 ∧
    clampDuty duty = min (max duty 0) 1 ∧
    toneLevel freq duty ≤ (toneParams freq).2 ∧
    play_tone freq ms duty
      = [ToneEffect.setClkdiv (toneParams freq).1, ToneEffect.setWrap (toneParams freq).2,
         ToneEffect.setLevel (toneLevel freq duty), ToneEffect.sleep ms,
         ToneEffect.setLevel 0] := by
  have hcl : clampDuty duty = min (max duty 0) 1 := by
    simp only [clampDuty]
    split_ifs with h1 h2 h2
    · linarith
    · rw [max_eq_right h1.le, min_eq_left]
      norm_num
    · rw [max_eq_left (not_lt.mp h1), min_eq_right h2.le]
    · rw [max_eq_left (not_lt.mp h1), min_eq_left (not_lt.mp h2)]
  have h0 : 0 ≤ clampDuty duty := by
    rw [hcl]
    exact le_min (le_max_right _ _) (by norm_num)
  have h1 : clampDuty duty ≤ 1 := by
    rw [hcl]
    exact min_le_right _ _
  refine ⟨h0, h1, hcl, ?_, ?_⟩
  · have hmul : (((toneParams freq).2 : ℚ)) * clampDuty duty ≤ ((toneParams freq).2 : ℚ) :=
      mul_le_of_le_one_right (Nat.cast_nonneg _) h1
    have hfl : ⌊(((toneParams freq).2 : ℚ)) * clampDuty duty⌋ ≤ ((toneParams freq).2 : Int) := by
      have := Int.floor_le_floor hmul
      rwa [Int.floor_natCast] at this
    exact Int.toNat_le.mpr hfl
  · simp [play_tone, Nat.pos_iff_ne_zero.mp hf]

theorem duty_clamped_safe_witness :
    0 < 1200 ∧
    (0 ≤ clampDuty 2 ∧ clampDuty 2 ≤ 1 ∧
     clampDuty 2 = min (max 2 0) 1 ∧
     toneLevel 1200 2 ≤ (toneParams 1200).2 ∧
     play_tone 1200 90 2
       = [ToneEffect.setClkdiv (toneParams 1200).1, ToneEffect.setWrap (toneParams 1200).2,
          ToneEffect.setLevel (toneLevel 1200 2), ToneEffect.sleep 90,
          ToneEffect.setLevel 0]) :=
  ⟨by decide, duty_clamped_safe 1200 90 2 (by decide)⟩

end DisplayOled

